import Mathlib

/-
Verification of the finn desktop daemon core against its specification.

The Go sources are shallowly embedded: Go strings are modelled as List Char
(byte-for-byte for the ASCII data these functions handle), Go maps keyed by
strings as association lists, and methods that mutate a receiver as functions
from the receiver value to an updated value.  Callback invocations, socket
writes and events handed to the event handler are collected in explicit lists
so that temporal statements become statements about those lists.
-/

namespace watcher

/-- Character-level translation used by EncodeProjectPath: the Go code is
strings.ReplaceAll(path, "/", "-"), a per-character substitution. -/
def encodeChar (c : Char) : Char := if c = '/' then '-' else c

/-- Character-level translation used by decodeProjectPath:
strings.ReplaceAll(encoded, "-", "/"). -/
def decodeChar (c : Char) : Char := if c = '-' then '/' else c

/-- EncodeProjectPath converts a path to the session-directory name:
strings.ReplaceAll(path, "/", "-"). -/
def EncodeProjectPath (path : List Char) : List Char := path.map encodeChar

/-- The leading-dash strip in decodeProjectPath: if len(encoded) > 0 and
encoded[0] == the dash character, drop it. -/
def stripLeadingDash (l : List Char) : List Char :=
  match l with
  | '-' :: rest => rest
  | other => other

/-- decodeProjectPath: strip one leading dash, replace every dash by a slash,
and prepend a slash. -/
def decodeProjectPath (encoded : List Char) : List Char :=
  '/' :: (stripLeadingDash encoded).map decodeChar

/-- ShouldWatchProject callback wired up in Agent.initSessionWatcher: the
project path is compared for equality against each approved folder path. -/
def shouldWatchProject (approvedPaths : List (List Char)) (projectPath : List Char) : Bool :=
  approvedPaths.any (fun p => p == projectPath)

end watcher

namespace config

/-- Folder is the approved-folder record from the configuration store. -/
structure Folder where
  id : String
  name : String
  path : String
deriving DecidableEq, Repr

/-- Config models the fields of the configuration relevant to folder
selection: the approved list and the selected folder id. -/
structure Config where
  approvedFolders : List Folder
  selectedFolderID : String
deriving DecidableEq, Repr

/-- RemoveFolder removes every folder with the given path, then clears the
selected id when no remaining folder carries it. -/
def RemoveFolder (c : Config) (path : String) : Config :=
  let filtered := c.approvedFolders.filter (fun f => f.path != path)
  if filtered.any (fun f => f.id == c.selectedFolderID) then
    { approvedFolders := filtered, selectedFolderID := c.selectedFolderID }
  else
    { approvedFolders := filtered, selectedFolderID := "" }

/-- RemoveFolderByID removes every folder with the given id; when no folder
has that id it returns an error and leaves the config unchanged; when the
removed folder was selected, the selection is cleared. -/
def RemoveFolderByID (c : Config) (fid : String) : Config × Option String :=
  let filtered := c.approvedFolders.filter (fun f => f.id != fid)
  if c.approvedFolders.any (fun f => f.id == fid) then
    ({ approvedFolders := filtered,
       selectedFolderID := if c.selectedFolderID == fid then "" else c.selectedFolderID },
     none)
  else
    (c, some ("folder with ID " ++ fid ++ " not found"))

/-- SelectFolder sets the selected folder id after verifying the folder
exists; unknown ids produce an error and leave the config unchanged. -/
def SelectFolder (c : Config) (fid : String) : Config × Option String :=
  if c.approvedFolders.any (fun f => f.id == fid) then
    ({ c with selectedFolderID := fid }, none)
  else
    (c, some ("folder with ID " ++ fid ++ " not found"))

/-- Invariant claimed for the configuration: the selection is empty or names
an approved folder. -/
def selectionInvariant (c : Config) : Prop :=
  c.selectedFolderID = "" ∨ ∃ f ∈ c.approvedFolders, f.id = c.selectedFolderID

end config

namespace wsclient

/-- Conn stands for one underlying socket connection of the control-channel
client; the identifier distinguishes connections across reconnects. -/
structure Conn where
  cid : Nat
deriving DecidableEq, Repr

/-- Client models the fields of the websocket control-channel client that
SendMessage and the reconnect machinery read and write: the current
connection, the connected flag, the single-flight reconnecting flag and
whether the main context has been cancelled by Close. -/
structure Client where
  conn : Option Conn
  connected : Bool
  reconnecting : Bool
  shuttingDown : Bool
deriving DecidableEq, Repr

/-- SendResult is the value SendMessage returns to its caller. -/
inductive SendResult where
  | ok : SendResult
  | errorMsg (msg : String) : SendResult
deriving DecidableEq, Repr

/-- SendMessage reads the connection under the mutex, fails with a not
connected error when the connection is nil or the connected flag is false,
and otherwise performs exactly one write on that connection.  The returned
list holds the socket writes the call performed; the returned client is the
state after the call. -/
def SendMessage (c : Client) (msg : String) : SendResult × List (Conn × String) × Client :=
  match c.conn with
  | none => (.errorMsg "not connected", [], c)
  | some conn =>
    if c.connected then (.ok, [(conn, msg)], c)
    else (.errorMsg "not connected", [], c)

/-- triggerReconnect performs the atomic check-and-set on the reconnecting
flag: when the client is shutting down or a reconnect loop is already in
flight nothing happens; otherwise the flag is set and one loop starts.  The
Bool records whether this trigger started a loop. -/
def triggerReconnect (c : Client) : Client × Bool :=
  if c.shuttingDown then (c, false)
  else if c.reconnecting then (c, false)
  else ({ c with reconnecting := true }, true)

/-- processTriggers linearises n concurrent disconnect triggers (reader exit,
keepalive exit) through the atomic compare-and-swap and counts how many
reconnect loops they start; no loop completion intervenes. -/
def processTriggers (c : Client) (n : Nat) : Client × Nat :=
  match n with
  | 0 => (c, 0)
  | n + 1 =>
    let step := triggerReconnect c
    let rest := processTriggers step.1 n
    (rest.1, (if step.2 then 1 else 0) + rest.2)

end wsclient

namespace tunnel

/-- ConnectionState of the tunnel client. -/
inductive ConnState where
  | connected : ConnState
  | reconnecting : ConnState
  | disconnected : ConnState
deriving DecidableEq, Repr

/-- World fixes, for every attempt number, whether the reconnect context is
observed cancelled at the top of the loop iteration, whether it is observed
cancelled during the backoff wait, and whether the dial of that attempt
succeeds.  Close() cancelling the reconnect context is represented by the
cancellation predicates becoming true. -/
structure World where
  cancelTop : Nat → Bool
  cancelBackoff : Nat → Bool
  connectOk : Nat → Bool

/-- Fixed backoff schedule of handleDisconnect: 1s, 2s, 4s, 8s, 16s. -/
def backoffs : List Nat := [1, 2, 4, 8, 16]

/-- Delay waited before the dial of a given attempt: index attempt - 1 into
the schedule, clamped to the last entry. -/
def backoffFor (attempt : Nat) : Nat :=
  let i := attempt - 1
  let j := if backoffs.length ≤ i then backoffs.length - 1 else i
  backoffs.getD j 0

/-- RunResult collects the observable behaviour of one handleDisconnect run:
the state-change callback invocations in order (state and attempt number),
the attempt numbers at which a dial was actually made, and the backoff
delays actually waited. -/
structure RunResult where
  notifs : List (ConnState × Nat)
  dials : List Nat
  waits : List Nat
deriving DecidableEq, Repr

/-- hdRun is the reconnection for-loop of handleDisconnect, with remaining
counting the iterations left (maxR - attempt + 1 at entry).  Each iteration
checks cancellation, notifies reconnecting, waits the backoff (cancellable),
dials, and on failure continues; exhausting all attempts notifies the final
disconnected state with the attempt cap. -/
def hdRun (w : World) (maxR : Nat) (attempt : Nat) : Nat → RunResult
  | 0 => { notifs := [(.disconnected, maxR)], dials := [], waits := [] }
  | r + 1 =>
    if w.cancelTop attempt then
      { notifs := [(.disconnected, attempt)], dials := [], waits := [] }
    else if w.cancelBackoff attempt then
      { notifs := [(.reconnecting, attempt), (.disconnected, attempt)], dials := [], waits := [] }
    else if w.connectOk attempt then
      { notifs := [(.reconnecting, attempt), (.connected, 0)],
        dials := [attempt], waits := [backoffFor attempt] }
    else
      let rest := hdRun w maxR (attempt + 1) r
      { notifs := (.reconnecting, attempt) :: rest.notifs,
        dials := attempt :: rest.dials,
        waits := backoffFor attempt :: rest.waits }

/-- handleDisconnect: when auto-reconnect is off the client just reports
disconnected; otherwise the loop runs attempts 1 through maxR. -/
def handleDisconnect (w : World) (autoReconnect : Bool) (maxR : Nat) : RunResult :=
  if autoReconnect then hdRun w maxR 1 maxR
  else { notifs := [(.disconnected, 0)], dials := [], waits := [] }

/-- NewClient default for maxReconnects. -/
def defaultMaxReconnects : Nat := 5

/-- TunnelClient state relevant to Close. -/
structure TunnelClient where
  state : ConnState
deriving DecidableEq, Repr

/-- Close cancels the reconnect context, closes the socket and then writes
the disconnected state directly under the mutex; it deliberately does not go
through setState, so the Close call itself invokes no state-change callback
(the empty list of the result). -/
def Close (_c : TunnelClient) : TunnelClient × List (ConnState × Nat) :=
  ({ state := .disconnected }, [])

/-- World in which cancellation is never observed and every dial fails. -/
def allFailWorld : World :=
  { cancelTop := fun _ => false, cancelBackoff := fun _ => false, connectOk := fun _ => false }

/-- World in which Close fires just before attempt k is processed: from
attempt k on, the context is observed cancelled; earlier dials all fail. -/
def cancelFromWorld (k : Nat) : World :=
  { cancelTop := fun a => decide (k ≤ a),
    cancelBackoff := fun _ => false,
    connectOk := fun _ => false }

end tunnel

namespace claude

/-- DOption is one option of a decision event sent to the client. -/
structure DOption where
  oid : String
  label : String
  description : String
deriving DecidableEq, Repr

/-- AskOption is one option inside an AskUserQuestion tool input. -/
structure AskOption where
  label : String
  description : String
deriving DecidableEq, Repr

/-- AskQuestion is one question inside an AskUserQuestion tool input. -/
structure AskQuestion where
  question : String
  header : String
  options : List AskOption
deriving DecidableEq, Repr

/-- ToolInput is the parsed form of a tool_use input payload: an
AskUserQuestion questions list, an ExitPlanMode plan, or anything else.
A malformed payload that fails the JSON unmarshal is represented by other. -/
inductive ToolInput where
  | ask (questions : List AskQuestion) : ToolInput
  | plan (text : String) : ToolInput
  | other : ToolInput
deriving DecidableEq, Repr

/-- ContentBlock is one content block of an assistant stream message. -/
structure ContentBlock where
  btype : String
  text : String
  name : String
  input : ToolInput
deriving DecidableEq, Repr

/-- Event is the executor event type handed to the agent event handler,
specialised with the payload each event kind carries. -/
inductive Event where
  | thinking (text : String) : Event
  | toolUse (name : String) (input : ToolInput) : Event
  | decision (question : String) (context : String) (options : List DOption) : Event
  | diffEvent (diffs : List (String × String)) : Event
  | complete (content : String) : Event
  | usage : Event
  | errorEv (msg : String) : Event
deriving DecidableEq, Repr

/-- numberOptions renumbers AskUserQuestion options: option i receives the
string id i+1, keeping label and description. -/
def numberOptions (opts : List AskOption) : List DOption :=
  opts.enum.map (fun p =>
    { oid := toString (p.1 + 1), label := p.2.label, description := p.2.description })

/-- Fixed approve and revise options of the ExitPlanMode decision. -/
def planDecisionOptions : List DOption :=
  [{ oid := "approve", label := "Approve & Execute",
     description := "Start executing the plan" },
   { oid := "revise", label := "Ask for Changes",
     description := "Tell Claude what to change" }]

/-- toolUseEvents is the tool_use arm of handleStreamMessage: a tool_use
event is sent first for every block; then an AskUserQuestion block whose
input parses with at least one question adds a decision event built from the
first question, and an ExitPlanMode block with a non-empty plan adds the
two-option plan-approval decision carrying the plan as context. -/
def toolUseEvents (b : ContentBlock) : List Event :=
  [.toolUse b.name b.input]
  ++ (if b.name = "AskUserQuestion" then
        match b.input with
        | .ask (q :: _) => [.decision q.question q.header (numberOptions q.options)]
        | _ => []
      else [])
  ++ (if b.name = "ExitPlanMode" then
        match b.input with
        | .plan p => if p = "" then [] else
            [.decision "Ready to execute this plan?" p planDecisionOptions]
        | _ => []
      else [])

/-- interactiveConversationFiles filters the post-turn changed files down to
those absent from the pre-turn snapshot. -/
def interactiveConversationFiles (before after : List String) : List String :=
  after.filter (fun f => ! before.contains f)

/-- nonemptyDiff holds when diff generation succeeds with non-empty text. -/
def nonemptyDiff (diffOf : String → Option String) (f : String) : Bool :=
  match diffOf f with
  | none => false
  | some d => ! (d == "")

/-- interactiveDiffs builds the diff map of the interactive executor: files
whose diff generation fails are skipped, and empty diffs are skipped. -/
def interactiveDiffs (diffOf : String → Option String) (files : List String) :
    List (String × String) :=
  files.filterMap (fun f =>
    match diffOf f with
    | none => none
    | some d => if d = "" then none else some (f, d))

/-- InteractiveTaskExecutor.handleCompletion: detect files changed after the
turn, drop those already changed before, generate diffs skipping failures
and empty diffs, then emit one batch diff event immediately followed by the
complete event; with nothing to show only a complete event is emitted.
diffOf abstracts git.GenerateDiff (none = error). -/
def interactiveHandleCompletion (before after : List String)
    (diffOf : String → Option String) : List Event :=
  let conversationFiles := interactiveConversationFiles before after
  if conversationFiles = [] then [.complete "files_changed:0"]
  else
    let diffs := interactiveDiffs diffOf conversationFiles
    if diffs = [] then [.complete "files_changed:0"]
    else [.diffEvent diffs, .complete (toString diffs.length ++ " files changed")]

/-- oneShotDiffs builds the diff map of the one-shot executor: files whose
diff generation fails are skipped, but empty diffs are kept. -/
def oneShotDiffs (diffOf : String → Option String) (files : List String) :
    List (String × String) :=
  files.filterMap (fun f => (diffOf f).map (fun d => (f, d)))

/-- TaskExecutor.handleCompletion of the one-shot executor: same snapshot
subtraction, diffs for the new files (empty diffs included), one diff event,
and a complete event only in auto-approve mode. -/
def oneShotHandleCompletion (before after : List String)
    (diffOf : String → Option String) (requiresApproval : Bool) : List Event :=
  let newFiles := after.filter (fun f => ! before.contains f)
  if newFiles = [] then [.complete "files_changed:0"]
  else
    let diffs := oneShotDiffs diffOf newFiles
    [.diffEvent diffs]
    ++ (if requiresApproval then []
        else [.complete (toString diffs.length ++ " files, auto approved")])

/-- ContinueAfterApproval commits the changes; it emits an error event on
commit failure and no event at all on success, in particular never a
complete event (the complete event was already sent by handleCompletion). -/
def ContinueAfterApproval (commitOk : Bool) : List Event :=
  if commitOk then [] else [.errorEv "Failed to commit"]

/-- emittedDiffFiles extracts, in order, the files carried by diff events. -/
def emittedDiffFiles (events : List Event) : List String :=
  events.foldr (fun e acc =>
    match e with
    | .diffEvent ds => ds.map Prod.fst ++ acc
    | _ => acc) []

/-- hasCompleteEvent decides whether a complete event occurs in a trace. -/
def hasCompleteEvent (events : List Event) : Bool :=
  events.any (fun e =>
    match e with
    | .complete _ => true
    | _ => false)

/-- Oracle that reports a one-line diff for every file. -/
def plusLineOracle : String → Option String := fun _ => some "+new line"

/-- Oracle that reports a successfully generated but empty diff. -/
def emptyDiffOracle : String → Option String := fun _ => some ""

/-- Concrete ExitPlanMode block used as input of the C4 counterexample. -/
def exitPlanBlock : ContentBlock :=
  { btype := "tool_use", text := "", name := "ExitPlanMode",
    input := .plan "Build the feature" }

end claude

namespace agent

/-- ConversationState tracks the per-file approval map (file path mapped to
approved) and the total number of tracked diffs. -/
structure ConversationState where
  pendingDiffs : List (String × Bool)
  totalDiffs : Nat
deriving DecidableEq, Repr

/-- mapSet is the Go map assignment pendingDiffs[k] = v on the association
list: overwrite the entry when the key is present, append it otherwise. -/
def mapSet (l : List (String × Bool)) (k : String) (v : Bool) : List (String × Bool) :=
  if l.any (fun p => p.1 == k) then
    l.map (fun p => if p.1 == k then (k, v) else p)
  else l ++ [(k, v)]

/-- countApproved counts entries marked approved. -/
def countApproved (l : List (String × Bool)) : Nat :=
  (l.filter (fun p => p.2)).length

/-- Agent.handleDiffApproved marks the file approved, recounts, and invokes
ContinueAfterApproval (which commits) exactly when the approved count has
reached totalDiffs; the Bool records that commit invocation. -/
def handleDiffApproved (st : ConversationState) (fp : String) : ConversationState × Bool :=
  let pd := mapSet st.pendingDiffs fp true
  ({ pendingDiffs := pd, totalDiffs := st.totalDiffs },
   decide (st.totalDiffs ≤ countApproved pd))

/-- HandlerResult records what a message handler did with the folder id it
received: the approved folder path it proceeded to open (if any), and
whether an error response went back to the requester. -/
structure HandlerResult where
  opened : Option String
  errored : Bool
deriving DecidableEq, Repr

/-- lookupFolderPath is the loop over cfg.ApprovedFolders matching the id
and keeping the path of the first match; the empty string means not found. -/
def lookupFolderPath (folders : List config.Folder) (fid : String) : String :=
  match folders.find? (fun f => f.id == fid) with
  | some f => f.path
  | none => ""

/-- Agent.handlePrompt: resolve the folder id against the approved set at
handling time; unknown ids produce an error, as does a missing coder CLI;
otherwise execution proceeds in the resolved path. -/
def handlePrompt (folders : List config.Folder) (fid : String)
    (claudeInstalled : Bool) : HandlerResult :=
  let folderPath := lookupFolderPath folders fid
  if folderPath == "" then { opened := none, errored := true }
  else if ! claudeInstalled then { opened := none, errored := true }
  else { opened := some folderPath, errored := false }

/-- Agent.handleGitInit: resolve the id, error when absent, else operate on
the resolved path. -/
def handleGitInit (folders : List config.Folder) (fid : String) : HandlerResult :=
  let folderPath := lookupFolderPath folders fid
  if folderPath == "" then { opened := none, errored := true }
  else { opened := some folderPath, errored := false }

/-- Agent.handleGetCommits: same resolution discipline as handleGitInit. -/
def handleGetCommits (folders : List config.Folder) (fid : String) : HandlerResult :=
  let folderPath := lookupFolderPath folders fid
  if folderPath == "" then { opened := none, errored := true }
  else { opened := some folderPath, errored := false }

/-- Agent.handleGetCommitDetail: same resolution discipline. -/
def handleGetCommitDetail (folders : List config.Folder) (fid : String) : HandlerResult :=
  let folderPath := lookupFolderPath folders fid
  if folderPath == "" then { opened := none, errored := true }
  else { opened := some folderPath, errored := false }

/-- Config.GetFolderByID used by handlePreviewStart. -/
def GetFolderByID (folders : List config.Folder) (fid : String) : Option config.Folder :=
  folders.find? (fun f => f.id == fid)

/-- Agent.handlePreviewStart: validate the folder id via GetFolderByID and
send an error status when it is unknown; otherwise the dev server is started
in the resolved folder path. -/
def handlePreviewStart (folders : List config.Folder) (fid : String) : HandlerResult :=
  match GetFolderByID folders fid with
  | none => { opened := none, errored := true }
  | some f => { opened := some f.path, errored := false }

/-- Agent.handlePreviewStop: stops the dev server and tunnel keyed by the
folder id without consulting the approved set; an unknown id is only logged,
no error goes back to the requester and no path is opened. -/
def handlePreviewStop (_folders : List config.Folder) (_fid : String) : HandlerResult :=
  { opened := none, errored := false }

/-- Agent.handleFolderRemoveRequest: the path of the first id match is kept
for clearing watcher state, and RemoveFolderByID reports an error for an
unknown id. -/
def handleFolderRemoveRequest (folders : List config.Folder) (fid : String) : HandlerResult :=
  match folders.find? (fun f => f.id == fid) with
  | some f => { opened := some f.path, errored := false }
  | none => { opened := none, errored := true }

/-- Agent.handleFolderSelectRequest, keyed on Config.SelectFolder: an
unknown id produces an error; no path is opened either way. -/
def handleFolderSelectRequest (c : config.Config) (fid : String) : HandlerResult :=
  match config.SelectFolder c fid with
  | (_, none) => { opened := none, errored := false }
  | (_, some _) => { opened := none, errored := true }

/-- Agent.handleRequestCommitSync: iterate the approved folders, keeping
those matching the optional folder id filter, and sync each of their paths;
an unknown non-empty id simply selects no folder and the handler still
acknowledges with commit_sync_complete, never an error. -/
def handleRequestCommitSync (folders : List config.Folder) (fid : String) :
    List String × Bool :=
  ((folders.filter (fun f => fid == "" || f.id == fid)).map (fun f => f.path), false)

/-- Agent.handleResumeSession: resolve the folder id; when that fails and a
project path was supplied, fall back to matching the path against the
approved set; on success the caller folder id is rewritten to the matched id
(the returned String); when both lookups fail an error is returned. -/
def handleResumeSession (folders : List config.Folder) (fid projectPath : String) :
    HandlerResult × String :=
  let primary : String × String :=
    match folders.find? (fun f => f.id == fid) with
    | some f => (f.path, f.id)
    | none => ("", "")
  let resolved : String × String :=
    if primary.1 == "" && projectPath != "" then
      match folders.find? (fun f => f.path == projectPath) with
      | some f => (f.path, f.id)
      | none => primary
    else primary
  if resolved.1 == "" then ({ opened := none, errored := true }, fid)
  else ({ opened := some resolved.1, errored := false }, resolved.2)

end agent

namespace watcher

/-- Literal User request: marker whose occurrence starts the stripped user
prompt inside the security preamble. -/
def userRequestMarker : List Char :=
  ['U', 's', 'e', 'r', ' ', 'r', 'e', 'q', 'u', 'e', 's', 't', ':']

/-- findSub is strings.Index: index of the first occurrence of pat, none
when absent. -/
def findSub (pat : List Char) : List Char → Option Nat
  | [] => if pat.isEmpty then some 0 else none
  | c :: rest =>
    if pat.isPrefixOf (c :: rest) then some 0
    else (findSub pat rest).map (fun i => i + 1)

/-- Whitespace recognised by the TrimSpace model. -/
def isSpaceChar (c : Char) : Bool :=
  c == ' ' || c == '\t' || c == '\n' || c == '\r'

/-- trimSpace is strings.TrimSpace: drop whitespace at both ends. -/
def trimSpace (l : List Char) : List Char :=
  ((l.dropWhile isSpaceChar).reverse.dropWhile isSpaceChar).reverse

/-- stripPreamble is the first step of generateTitleFromMessage: when the
marker occurs, keep only the trimmed text after it. -/
def stripPreamble (message : List Char) : List Char :=
  match findSub userRequestMarker message with
  | none => message
  | some i => trimSpace (message.drop (i + userRequestMarker.length))

/-- lastSpaceIdx is strings.LastIndex(truncated, one space): the largest
index holding a space, none when no space occurs. -/
def lastSpaceIdx (l : List Char) : Option Nat :=
  (l.reverse.findIdx? (fun c => c == ' ')).map (fun j => l.length - 1 - j)

/-- Title length bound used by generateTitleFromMessage. -/
def maxTitleLen : Nat := 60

/-- generateTitleFromMessage: strip the preamble; return the message when it
fits in 60 characters; otherwise take the first 60 characters, cut back to
the last space when that space lies past position 30, and append an
ellipsis of three dots. -/
def generateTitleFromMessage (message : List Char) : List Char :=
  let m := stripPreamble message
  if m.length ≤ maxTitleLen then m
  else
    let truncated := m.take maxTitleLen
    let cut :=
      match lastSpaceIdx truncated with
      | some i => if maxTitleLen / 2 < i then truncated.take i else truncated
      | none => truncated
    cut ++ ['.', '.', '.']

/-- SessionRecord carries of each session-log line the fields the title
logic of parseSessionFile reads: the record type, the text extracted by
GetTextContent, and the summary string. -/
structure SessionRecord where
  rtype : String
  text : List Char
  summary : List Char
deriving DecidableEq, Repr

/-- TitleAcc holds the four accumulators of the parseSessionFile scan. -/
structure TitleAcc where
  title : List Char
  firstUser : List Char
  firstAssistant : List Char
  anyContent : List Char
deriving DecidableEq, Repr

/-- titleStep is one loop iteration of parseSessionFile.  The four source
if-statements update four distinct variables, so the sequential updates of
the Go loop equal this simultaneous record update. -/
def titleStep (acc : TitleAcc) (msg : SessionRecord) : TitleAcc :=
  { title := if msg.rtype == "summary" && ! msg.summary.isEmpty then msg.summary else acc.title,
    firstUser :=
      if acc.firstUser.isEmpty && msg.rtype == "user" && ! msg.text.isEmpty then
        msg.text
      else acc.firstUser,
    firstAssistant :=
      if acc.firstAssistant.isEmpty && msg.rtype == "assistant" && ! msg.text.isEmpty then
        msg.text
      else acc.firstAssistant,
    anyContent :=
      if acc.anyContent.isEmpty && ! msg.text.isEmpty then msg.text else acc.anyContent }

/-- Initial accumulator: all four strings empty. -/
def initTitleAcc : TitleAcc :=
  { title := [], firstUser := [], firstAssistant := [], anyContent := [] }

/-- deriveTitle is the title computation of parseSessionFile: scan all
records, then prefer the summary title, else generate from the first user
text, else the first assistant text, else any content. -/
def deriveTitle (records : List SessionRecord) : List Char :=
  let acc := records.foldl titleStep initTitleAcc
  if ! acc.title.isEmpty then acc.title
  else if ! acc.firstUser.isEmpty then generateTitleFromMessage acc.firstUser
  else if ! acc.firstAssistant.isEmpty then generateTitleFromMessage acc.firstAssistant
  else if ! acc.anyContent.isEmpty then generateTitleFromMessage acc.anyContent
  else []

/-- firstText is the specification-side reading of a fallback slot: the text
of the first record satisfying the predicate. -/
def firstText (p : SessionRecord → Bool) (records : List SessionRecord) : List Char :=
  match records.find? p with
  | some r => r.text
  | none => []

end watcher

/-
Theorems.  Helper lemmas come first, then one theorem per claim, each with a
witness where the statement carries hypotheses.
-/

theorem decodeChar_encodeChar (c : Char) (h : c ≠ '-') :
    watcher.decodeChar (watcher.encodeChar c) = c := by
  by_cases hc : c = '/'
  · simp [watcher.encodeChar, watcher.decodeChar, hc]
  · simp [watcher.encodeChar, watcher.decodeChar, hc, h]

theorem decodeChar_ne_dash (c : Char) : watcher.decodeChar c ≠ '-' := by
  by_cases hc : c = '-'
  · simp [watcher.decodeChar, hc]
  · simp [watcher.decodeChar, hc]

theorem dash_not_mem_decode (l : List Char) : '-' ∉ watcher.decodeProjectPath l := by
  intro hmem
  simp only [watcher.decodeProjectPath, List.mem_cons, List.mem_map] at hmem
  rcases hmem with h | ⟨c, _, hc⟩
  · exact absurd h (by decide)
  · exact decodeChar_ne_dash c hc

theorem map_decode_encode (rest : List Char) (h : '-' ∉ rest) :
    (rest.map watcher.encodeChar).map watcher.decodeChar = rest := by
  induction rest with
  | nil => rfl
  | cons c tl ih =>
    have hc : c ≠ '-' := fun hcd => h (hcd ▸ List.mem_cons_self c tl)
    have htl : '-' ∉ tl := fun hm => h (List.mem_cons_of_mem c hm)
    simp [decodeChar_encodeChar c hc, ih htl]

/-- C9: for an absolute path free of dashes the decode inverts the encode,
while any path containing a dash decodes to a different path, so the
should-watch filter never matches that folder and its logs go untracked. -/
theorem c9_project_path_roundtrip :
    (∀ rest : List Char, '-' ∉ ('/' :: rest) →
      watcher.decodeProjectPath (watcher.EncodeProjectPath ('/' :: rest)) = '/' :: rest)
    ∧ (∀ p : List Char, '-' ∈ p →
      watcher.decodeProjectPath (watcher.EncodeProjectPath p) ≠ p
      ∧ watcher.shouldWatchProject [p]
          (watcher.decodeProjectPath (watcher.EncodeProjectPath p)) = false) := by
  constructor
  · intro rest h
    have hrest : '-' ∉ rest := fun hm => h (List.mem_cons_of_mem '/' hm)
    simp only [watcher.EncodeProjectPath, List.map_cons]
    have henc : watcher.encodeChar '/' = '-' := by decide
    rw [henc]
    simp only [watcher.decodeProjectPath, watcher.stripLeadingDash]
    rw [map_decode_encode rest hrest]
  · intro p hp
    have hne : watcher.decodeProjectPath (watcher.EncodeProjectPath p) ≠ p := by
      intro he
      rw [← he] at hp
      exact dash_not_mem_decode (watcher.EncodeProjectPath p) hp
    refine ⟨hne, ?_⟩
    simp only [watcher.shouldWatchProject, List.any_cons, List.any_nil, Bool.or_false]
    exact beq_eq_false_iff_ne.mpr (fun he => hne he.symm)

/-- C9 witness: evaluation at the concrete paths /ab and /my-app. -/
theorem c9_witness :
    watcher.decodeProjectPath (watcher.EncodeProjectPath ('/' :: ['a', 'b'])) = '/' :: ['a', 'b']
    ∧ watcher.decodeProjectPath
        (watcher.EncodeProjectPath ['/', 'm', 'y', '-', 'a', 'p', 'p'])
        ≠ ['/', 'm', 'y', '-', 'a', 'p', 'p'] :=
  ⟨c9_project_path_roundtrip.1 ['a', 'b'] (by decide),
   (c9_project_path_roundtrip.2 ['/', 'm', 'y', '-', 'a', 'p', 'p'] (by decide)).1⟩

/-- C10: the configuration keeps the selected folder id empty or pointing at
an approved folder: SelectFolder rejects unknown ids leaving the selection
unchanged, and both removal operations clear the selection when the removed
folder was the selected one. -/
theorem c10_selection_invariant :
    (∀ (c : config.Config) (fid : String), (∀ f ∈ c.approvedFolders, f.id ≠ fid) →
      config.SelectFolder c fid = (c, some ("folder with ID " ++ fid ++ " not found")))
    ∧ (∀ (c : config.Config) (fid : String), config.selectionInvariant c →
      config.selectionInvariant (config.SelectFolder c fid).1)
    ∧ (∀ (c : config.Config) (path : String),
      config.selectionInvariant (config.RemoveFolder c path))
    ∧ (∀ (c : config.Config) (path : String),
      (∀ f ∈ c.approvedFolders, f.id = c.selectedFolderID → f.path = path) →
      (config.RemoveFolder c path).selectedFolderID = "")
    ∧ (∀ (c : config.Config) (fid : String), config.selectionInvariant c →
      config.selectionInvariant (config.RemoveFolderByID c fid).1)
    ∧ (∀ (c : config.Config) (fid : String), (∃ f ∈ c.approvedFolders, f.id = fid) →
      c.selectedFolderID = fid →
      (config.RemoveFolderByID c fid).1.selectedFolderID = "") := by
  refine ⟨?_, ?_, ?_, ?_, ?_, ?_⟩
  · intro c fid h
    have hany : c.approvedFolders.any (fun f => f.id == fid) = false := by
      simp only [List.any_eq_false]
      intro f hf
      simpa using h f hf
    simp [config.SelectFolder, hany]
  · intro c fid hinv
    simp only [config.SelectFolder]
    by_cases hany : c.approvedFolders.any (fun f => f.id == fid) = true
    · rcases List.any_eq_true.mp hany with ⟨f, hf, hid⟩
      simp only [hany, if_true]
      exact Or.inr ⟨f, hf, by simpa using hid⟩
    · simp only [Bool.not_eq_true] at hany
      simp only [hany, Bool.false_eq_true, if_false]
      exact hinv
  · intro c path
    simp only [config.RemoveFolder]
    by_cases hany :
        (c.approvedFolders.filter (fun f => f.path != path)).any
          (fun f => f.id == c.selectedFolderID) = true
    · rcases List.any_eq_true.mp hany with ⟨f, hf, hid⟩
      simp only [hany, if_true]
      exact Or.inr ⟨f, hf, by simpa using hid⟩
    · simp only [Bool.not_eq_true] at hany
      simp only [hany, Bool.false_eq_true, if_false]
      exact Or.inl rfl
  · intro c path h
    have hany : (c.approvedFolders.filter (fun f => f.path != path)).any
        (fun f => f.id == c.selectedFolderID) = false := by
      simp only [List.any_eq_false]
      intro f hf
      rcases List.mem_filter.mp hf with ⟨hmem, hpath⟩
      intro hid
      have hid' : f.id = c.selectedFolderID := by simpa using hid
      have := h f hmem hid'
      simp [this] at hpath
    simp [config.RemoveFolder, hany]
  · intro c fid hinv
    simp only [config.RemoveFolderByID]
    by_cases hany : c.approvedFolders.any (fun f => f.id == fid) = true
    · simp only [hany, if_true]
      by_cases hsel : c.selectedFolderID == fid
      · simp only [hsel, if_true]
        exact Or.inl rfl
      · simp only [hsel, Bool.false_eq_true, if_false]
        rcases hinv with hempty | ⟨f, hf, hid⟩
        · exact Or.inl hempty
        · refine Or.inr ⟨f, List.mem_filter.mpr ⟨hf, ?_⟩, hid⟩
          have hne : c.selectedFolderID ≠ fid := by
            intro he
            simp [he] at hsel
          simpa using fun he => hne (hid ▸ he)
    · simp only [Bool.not_eq_true] at hany
      simp only [hany, Bool.false_eq_true, if_false]
      exact hinv
  · intro c fid hfound hsel
    have hany : c.approvedFolders.any (fun f => f.id == fid) = true := by
      rcases hfound with ⟨f, hf, hid⟩
      exact List.any_eq_true.mpr ⟨f, hf, by simpa using hid⟩
    simp [config.RemoveFolderByID, hany, hsel]

/-- C10 witness: a two-folder configuration with one folder selected,
exercising rejection of an unknown id and the two removal paths. -/
theorem c10_witness :
    config.SelectFolder
        { approvedFolders := [{ id := "u1", name := "a", path := "/a" }],
          selectedFolderID := "u1" } "ghost"
      = ({ approvedFolders := [{ id := "u1", name := "a", path := "/a" }],
           selectedFolderID := "u1" },
         some ("folder with ID " ++ "ghost" ++ " not found"))
    ∧ (config.RemoveFolder
        { approvedFolders := [{ id := "u1", name := "a", path := "/a" }],
          selectedFolderID := "u1" } "/a").selectedFolderID = ""
    ∧ (config.RemoveFolderByID
        { approvedFolders := [{ id := "u1", name := "a", path := "/a" }],
          selectedFolderID := "u1" } "u1").1.selectedFolderID = "" := by
  refine ⟨?_, ?_, ?_⟩
  · exact c10_selection_invariant.1 _ "ghost" (by decide)
  · exact c10_selection_invariant.2.2.2.1 _ "/a" (by decide)
  · exact c10_selection_invariant.2.2.2.2.2 _ "u1" ⟨_, List.mem_singleton.mpr rfl, rfl⟩ rfl

theorem processTriggers_reconnecting (c : wsclient.Client) (n : Nat)
    (h : c.reconnecting = true) :
    wsclient.processTriggers c n = (c, 0) := by
  induction n with
  | zero => rfl
  | succ m ih =>
    have hstep : wsclient.triggerReconnect c = (c, false) := by
      by_cases hs : c.shuttingDown = true
      · simp [wsclient.triggerReconnect, hs]
      · simp only [Bool.not_eq_true] at hs
        simp [wsclient.triggerReconnect, hs, h]
    simp [wsclient.processTriggers, hstep, ih]

/-- C5: concurrent disconnect triggers linearised through the check-and-set
flag start no second reconnect loop: while one loop is in flight every
trigger is a no-op, and from an idle client any positive number of
concurrent triggers starts exactly one loop. -/
theorem c5_single_flight_reconnect :
    (∀ (c : wsclient.Client) (n : Nat), c.reconnecting = true →
      (wsclient.processTriggers c n).2 = 0)
    ∧ (∀ (c : wsclient.Client) (n : Nat),
      c.shuttingDown = false → c.reconnecting = false → 0 < n →
      (wsclient.processTriggers c n).2 = 1) := by
  constructor
  · intro c n h
    simp [processTriggers_reconnecting c n h]
  · intro c n hs hr hn
    cases n with
    | zero => exact absurd hn (by decide)
    | succ m =>
      have hstep : wsclient.triggerReconnect c = ({ c with reconnecting := true }, true) := by
        simp [wsclient.triggerReconnect, hs, hr]
      have hrest := processTriggers_reconnecting { c with reconnecting := true } m rfl
      simp [wsclient.processTriggers, hstep, hrest]

/-- C5 witness: 1000 concurrent disconnect signals on an idle connected
client start exactly one loop, and 7 triggers during an active loop start
none. -/
theorem c5_witness :
    (wsclient.processTriggers
      { conn := some { cid := 1 }, connected := true,
        reconnecting := false, shuttingDown := false } 1000).2 = 1
    ∧ (wsclient.processTriggers
      { conn := none, connected := false,
        reconnecting := true, shuttingDown := false } 7).2 = 0 :=
  ⟨c5_single_flight_reconnect.2
      { conn := some { cid := 1 }, connected := true,
        reconnecting := false, shuttingDown := false } 1000 rfl rfl (by decide),
   c5_single_flight_reconnect.1
      { conn := none, connected := false,
        reconnecting := true, shuttingDown := false } 7 rfl⟩

/-- C7: a send invoked while the client is disconnected (nil connection or
connected flag false) returns the not connected error immediately, performs
no socket write and leaves the client state unchanged. -/
theorem c7_send_not_connected :
    ∀ (c : wsclient.Client) (msg : String),
      (c.conn = none ∨ c.connected = false) →
      wsclient.SendMessage c msg = (.errorMsg "not connected", [], c) := by
  intro c msg h
  rcases h with h | h
  · simp [wsclient.SendMessage, h]
  · cases hc : c.conn with
    | none => simp [wsclient.SendMessage, hc]
    | some conn => simp [wsclient.SendMessage, hc, h]

/-- C7 witness: a client whose connection is present but whose connected
flag is false rejects the send, writes nothing and is unchanged. -/
theorem c7_witness :
    wsclient.SendMessage
      { conn := some { cid := 3 }, connected := false,
        reconnecting := false, shuttingDown := false } "hello"
      = (.errorMsg "not connected", [],
         { conn := some { cid := 3 }, connected := false,
           reconnecting := false, shuttingDown := false }) :=
  c7_send_not_connected
    { conn := some { cid := 3 }, connected := false,
      reconnecting := false, shuttingDown := false } "hello" (Or.inr rfl)

theorem backoffFor_eq (k : Nat) (hk : 1 ≤ k) :
    tunnel.backoffFor k = min (2 ^ (k - 1)) 16 := by
  rcases Nat.lt_or_ge k 6 with h | h
  · interval_cases k <;> decide
  · have h1 : tunnel.backoffFor k = 16 := by
      have h5 : (5 : Nat) ≤ k - 1 := by omega
      simp [tunnel.backoffFor, tunnel.backoffs, h5]
    have h2 : 16 ≤ 2 ^ (k - 1) := by
      calc (16 : Nat) ≤ 2 ^ 5 := by decide
        _ ≤ 2 ^ (k - 1) := Nat.pow_le_pow_right (by decide) (by omega)
    rw [h1]
    omega

theorem hdRun_allFail (maxR : Nat) : ∀ (r a : Nat),
    tunnel.hdRun tunnel.allFailWorld maxR a r =
      { notifs := (List.range' a r).map (fun j => (tunnel.ConnState.reconnecting, j))
          ++ [(tunnel.ConnState.disconnected, maxR)],
        dials := List.range' a r,
        waits := (List.range' a r).map tunnel.backoffFor } := by
  intro r
  induction r with
  | zero => intro a; simp [tunnel.hdRun]
  | succ r ih =>
    intro a
    rw [List.range'_succ]
    have hc : tunnel.allFailWorld.cancelTop a = false := rfl
    have hcb : tunnel.allFailWorld.cancelBackoff a = false := rfl
    have hco : tunnel.allFailWorld.connectOk a = false := rfl
    simp [tunnel.hdRun, hc, hcb, hco, ih (a + 1)]

theorem hdRun_cancelFrom (maxR k : Nat) : ∀ (r a : Nat), a ≤ k → k < a + r →
    tunnel.hdRun (tunnel.cancelFromWorld k) maxR a r =
      { notifs := (List.range' a (k - a)).map (fun j => (tunnel.ConnState.reconnecting, j))
          ++ [(tunnel.ConnState.disconnected, k)],
        dials := List.range' a (k - a),
        waits := (List.range' a (k - a)).map tunnel.backoffFor } := by
  intro r
  induction r with
  | zero => intro a h1 h2; omega
  | succ r ih =>
    intro a h1 h2
    by_cases hak : k ≤ a
    · have ha : a = k := Nat.le_antisymm h1 hak
      subst ha
      have hc : (tunnel.cancelFromWorld a).cancelTop a = true := by
        simp [tunnel.cancelFromWorld]
      simp [tunnel.hdRun, hc, Nat.sub_self]
    · push_neg at hak
      have hc : (tunnel.cancelFromWorld k).cancelTop a = false := by
        simp only [tunnel.cancelFromWorld, decide_eq_false_iff_not]
        omega
      have hcb : (tunnel.cancelFromWorld k).cancelBackoff a = false := rfl
      have hco : (tunnel.cancelFromWorld k).connectOk a = false := rfl
      have hrange : List.range' a (k - a) = a :: List.range' (a + 1) (k - (a + 1)) := by
        have hka : k - a = (k - (a + 1)) + 1 := by omega
        rw [hka, List.range'_succ]
      rw [hrange]
      simp [tunnel.hdRun, hc, hcb, hco, ih (a + 1) (by omega) (by omega)]

/-- C6 counterexample: Close fires while a disconnect is being handled, just
before attempt 1 is processed.  No dial is attempted, yet the final
disconnected state IS reported through the state-change callback by the
in-flight loop, contradicting the claim that the final state is not
reported. -/
theorem c6_counterexample :
    (tunnel.handleDisconnect (tunnel.cancelFromWorld 1) true 5).dials = []
    ∧ (tunnel.ConnState.disconnected, 1)
        ∈ (tunnel.handleDisconnect (tunnel.cancelFromWorld 1) true 5).notifs := by
  exact ⟨rfl, by decide⟩

/-- C6 amended: on a read error the loop makes attempts 1..N, waiting before
attempt k the delay min(2^(k-1), 16) from the schedule 1,2,4,8,16 (last
value repeating), with N defaulting to 5; when every dial fails the callback
sees reconnecting 1..N then disconnected N.  After Close cancels the
context before attempt k, no further dial happens and the run ends in the
disconnected state; the Close call itself fires no callback, but the
in-flight loop does report the disconnected state with the current attempt
number. -/
theorem c6_reconnect_schedule :
    (∀ k, 1 ≤ k → tunnel.backoffFor k = min (2 ^ (k - 1)) 16)
    ∧ tunnel.defaultMaxReconnects = 5
    ∧ (∀ maxR, tunnel.handleDisconnect tunnel.allFailWorld true maxR =
        { notifs := (List.range' 1 maxR).map (fun k => (tunnel.ConnState.reconnecting, k))
            ++ [(tunnel.ConnState.disconnected, maxR)],
          dials := List.range' 1 maxR,
          waits := (List.range' 1 maxR).map tunnel.backoffFor })
    ∧ (∀ maxR k, 1 ≤ k → k ≤ maxR →
        tunnel.handleDisconnect (tunnel.cancelFromWorld k) true maxR =
        { notifs := (List.range' 1 (k - 1)).map (fun j => (tunnel.ConnState.reconnecting, j))
            ++ [(tunnel.ConnState.disconnected, k)],
          dials := List.range' 1 (k - 1),
          waits := (List.range' 1 (k - 1)).map tunnel.backoffFor })
    ∧ (∀ c, tunnel.Close c = ({ state := tunnel.ConnState.disconnected }, [])) := by
  refine ⟨backoffFor_eq, rfl, ?_, ?_, fun _ => rfl⟩
  · intro maxR
    simp only [tunnel.handleDisconnect, if_true]
    exact hdRun_allFail maxR maxR 1
  · intro maxR k h1 h2
    simp only [tunnel.handleDisconnect, if_true]
    have := hdRun_cancelFrom maxR k maxR 1 h1 (by omega)
    simpa using this

/-- C6 witness: with the default five attempts and all dials failing the
callback trace is reconnecting 1..5 and then disconnected 5, the dials are
1..5 and the waits are 1,2,4,8,16; cancellation before attempt 3 leaves
only dials 1 and 2. -/
theorem c6_witness :
    tunnel.handleDisconnect tunnel.allFailWorld true tunnel.defaultMaxReconnects =
      { notifs := [(tunnel.ConnState.reconnecting, 1), (tunnel.ConnState.reconnecting, 2),
                   (tunnel.ConnState.reconnecting, 3), (tunnel.ConnState.reconnecting, 4),
                   (tunnel.ConnState.reconnecting, 5), (tunnel.ConnState.disconnected, 5)],
        dials := [1, 2, 3, 4, 5],
        waits := [1, 2, 4, 8, 16] }
    ∧ (tunnel.handleDisconnect (tunnel.cancelFromWorld 3) true 5).dials = [1, 2] := by
  constructor
  · have h := c6_reconnect_schedule.2.2.1 5
    simpa [tunnel.defaultMaxReconnects, List.range', tunnel.backoffFor, tunnel.backoffs] using h
  · have h := c6_reconnect_schedule.2.2.2.1 5 3 (by decide) (by decide)
    rw [h]
    decide

/-- C4 counterexample: for an ExitPlanMode tool_use block with a non-empty
plan, the event stream emitted by the tool_use arm starts with the raw
tool_use event, so that block IS forwarded as a tool_use event to the
client, contradicting the claim. -/
theorem c4_counterexample :
    claude.Event.toolUse "ExitPlanMode" (claude.ToolInput.plan "Build the feature")
      ∈ claude.toolUseEvents claude.exitPlanBlock
    ∧ (claude.toolUseEvents claude.exitPlanBlock).head? =
        some (claude.Event.toolUse "ExitPlanMode" (claude.ToolInput.plan "Build the feature")) := by
  constructor <;> decide

/-- C4 amended: an AskUserQuestion block with parseable questions and an
ExitPlanMode block with a non-empty plan each produce the corresponding
decision event (for ExitPlanMode the two-option approve or revise decision
carrying the plan text as context), but the block is also forwarded as a
tool_use event, emitted before the decision; every tool_use block is
forwarded first. -/
theorem c4_decision_conversion :
    (∀ (b : claude.ContentBlock) (q : claude.AskQuestion) (qs : List claude.AskQuestion),
      b.name = "AskUserQuestion" → b.input = .ask (q :: qs) →
      claude.toolUseEvents b =
        [.toolUse b.name b.input,
         .decision q.question q.header (claude.numberOptions q.options)])
    ∧ (∀ (b : claude.ContentBlock) (p : String),
      b.name = "ExitPlanMode" → b.input = .plan p → p ≠ "" →
      claude.toolUseEvents b =
        [.toolUse b.name b.input,
         .decision "Ready to execute this plan?" p claude.planDecisionOptions])
    ∧ (∀ b : claude.ContentBlock,
      (claude.toolUseEvents b).head? = some (.toolUse b.name b.input)) := by
  refine ⟨?_, ?_, ?_⟩
  · intro b q qs hname hinput
    simp [claude.toolUseEvents, hname, hinput]
  · intro b p hname hinput hne
    simp [claude.toolUseEvents, hname, hinput, hne]
  · intro b
    simp [claude.toolUseEvents]

/-- C4 witness: the concrete ExitPlanMode block yields the tool_use event
followed by the plan-approval decision. -/
theorem c4_witness :
    claude.toolUseEvents claude.exitPlanBlock =
      [.toolUse "ExitPlanMode" (claude.ToolInput.plan "Build the feature"),
       .decision "Ready to execute this plan?" "Build the feature"
         claude.planDecisionOptions] :=
  c4_decision_conversion.2.1 claude.exitPlanBlock "Build the feature" rfl rfl (by decide)

theorem interactiveDiffs_fst (diffOf : String → Option String) (files : List String) :
    (claude.interactiveDiffs diffOf files).map Prod.fst
      = files.filter (fun f => claude.nonemptyDiff diffOf f) := by
  induction files with
  | nil => rfl
  | cons f tl ih =>
    simp only [claude.interactiveDiffs, claude.nonemptyDiff] at ih
    cases hd : diffOf f with
    | none =>
      simp [claude.interactiveDiffs, claude.nonemptyDiff, List.filterMap_cons, hd,
        List.filter_cons, ih]
    | some d =>
      by_cases hde : d = ""
      · simp [claude.interactiveDiffs, claude.nonemptyDiff, List.filterMap_cons, hd, hde,
          List.filter_cons, ih]
      · simp [claude.interactiveDiffs, claude.nonemptyDiff, List.filterMap_cons, hd, hde,
          List.filter_cons, ih]

theorem oneShotDiffs_fst (diffOf : String → Option String) (files : List String) :
    (claude.oneShotDiffs diffOf files).map Prod.fst
      = files.filter (fun f => (diffOf f).isSome) := by
  induction files with
  | nil => rfl
  | cons f tl ih =>
    simp only [claude.oneShotDiffs] at ih
    cases hd : diffOf f with
    | none =>
      simp [claude.oneShotDiffs, List.filterMap_cons, hd, List.filter_cons, ih]
    | some d =>
      simp [claude.oneShotDiffs, List.filterMap_cons, hd, List.filter_cons, ih]

/-- C3 counterexample: the one-shot executor keeps an empty diff in the diff
event.  With an empty pre-turn snapshot, one new file and a successfully
generated empty diff, the emitted diff set is that file although the set of
new files with non-empty diff is empty, contradicting the claim for the
one-shot executor. -/
theorem c3_counterexample :
    claude.emittedDiffFiles
        (claude.oneShotHandleCompletion [] ["a.txt"] claude.emptyDiffOracle false)
      = ["a.txt"]
    ∧ ["a.txt"].filter (fun f => claude.nonemptyDiff claude.emptyDiffOracle f) = [] := by
  constructor <;> decide

/-- C3 amended: the interactive executor emits exactly the post-turn files
absent from the pre-turn snapshot whose diff generation succeeds with
non-empty text; the one-shot executor emits the post-turn files absent from
the snapshot whose diff generation succeeds, empty diffs included (only
generation failures are omitted). -/
theorem c3_diff_scoping :
    (∀ (before after : List String) (diffOf : String → Option String),
      claude.emittedDiffFiles (claude.interactiveHandleCompletion before after diffOf)
        = (after.filter (fun f => ! before.contains f)).filter
            (fun f => claude.nonemptyDiff diffOf f))
    ∧ (∀ (before after : List String) (diffOf : String → Option String) (req : Bool),
      claude.emittedDiffFiles (claude.oneShotHandleCompletion before after diffOf req)
        = (after.filter (fun f => ! before.contains f)).filter
            (fun f => (diffOf f).isSome)) := by
  constructor
  · intro before after diffOf
    simp only [claude.interactiveHandleCompletion, claude.interactiveConversationFiles]
    by_cases h1 : after.filter (fun f => ! before.contains f) = []
    · rw [if_pos h1, h1]
      rfl
    · rw [if_neg h1]
      by_cases h2 : claude.interactiveDiffs diffOf
          (after.filter (fun f => ! before.contains f)) = []
      · rw [if_pos h2]
        have hA := interactiveDiffs_fst diffOf (after.filter (fun f => ! before.contains f))
        rw [h2] at hA
        rw [← hA]
        rfl
      · rw [if_neg h2]
        have hA := interactiveDiffs_fst diffOf (after.filter (fun f => ! before.contains f))
        rw [← hA]
        simp [claude.emittedDiffFiles]
  · intro before after diffOf req
    simp only [claude.oneShotHandleCompletion]
    by_cases h1 : after.filter (fun f => ! before.contains f) = []
    · rw [if_pos h1, h1]
      rfl
    · rw [if_neg h1]
      have hB := oneShotDiffs_fst diffOf (after.filter (fun f => ! before.contains f))
      rw [← hB]
      cases req with
      | false => simp [claude.emittedDiffFiles]
      | true => simp [claude.emittedDiffFiles]

/-- C3 witness: interactive run with one pre-existing file, one new file
with a real diff and one new file with an empty diff emits only the file
with the non-empty diff. -/
theorem c3_witness :
    claude.emittedDiffFiles
        (claude.interactiveHandleCompletion ["old.txt"] ["old.txt", "a.txt"]
          claude.plusLineOracle)
      = ["a.txt"] := by
  have h := c3_diff_scoping.1 ["old.txt"] ["old.txt", "a.txt"] claude.plusLineOracle
  rw [h]
  decide

/-- C1 counterexample: an interactive-mode conversation with a non-empty
diff set emits a complete event during the completion flow itself, before
any diff_approved message can have been handled, contradicting the claim
that complete is never emitted before every file is approved. -/
theorem c1_counterexample :
    claude.emittedDiffFiles
        (claude.interactiveHandleCompletion [] ["a.txt"] claude.plusLineOracle) = ["a.txt"]
    ∧ claude.hasCompleteEvent
        (claude.interactiveHandleCompletion [] ["a.txt"] claude.plusLineOracle) = true := by
  constructor <;> decide

/-- C1 amended: in interactive mode the complete event is emitted
immediately after the diff event, within the completion flow and before any
approval arrives; once every tracked file has been approved through
diff_approved the agent invokes the commit (and only then), and that commit
path emits no further complete event. -/
theorem c1_completion_gating :
    (∀ (before after : List String) (diffOf : String → Option String),
      claude.interactiveDiffs diffOf (claude.interactiveConversationFiles before after) ≠ [] →
      claude.interactiveHandleCompletion before after diffOf =
        [.diffEvent (claude.interactiveDiffs diffOf
            (claude.interactiveConversationFiles before after)),
         .complete (toString (claude.interactiveDiffs diffOf
            (claude.interactiveConversationFiles before after)).length ++ " files changed")])
    ∧ (∀ commitOk, claude.hasCompleteEvent (claude.ContinueAfterApproval commitOk) = false)
    ∧ (∀ (st : agent.ConversationState) (fp : String),
      st.pendingDiffs.any (fun p => p.1 == fp) = true →
      st.totalDiffs = st.pendingDiffs.length →
      ((agent.handleDiffApproved st fp).2 = true ↔
        ∀ p ∈ (agent.handleDiffApproved st fp).1.pendingDiffs, p.2 = true)) := by
  refine ⟨?_, ?_, ?_⟩
  · intro before after diffOf hne
    have hcf : claude.interactiveConversationFiles before after ≠ [] := by
      intro h
      apply hne
      rw [h]
      rfl
    simp only [claude.interactiveHandleCompletion]
    rw [if_neg hcf, if_neg hne]
  · intro commitOk
    cases commitOk <;> rfl
  · intro st fp hmem hlen
    simp only [agent.handleDiffApproved]
    have hpd : (agent.mapSet st.pendingDiffs fp true).length = st.pendingDiffs.length := by
      simp [agent.mapSet, hmem]
    have hle := List.length_filter_le (fun q : String × Bool => q.2)
      (agent.mapSet st.pendingDiffs fp true)
    constructor
    · intro hc p hp
      have hc2 : st.totalDiffs ≤ agent.countApproved (agent.mapSet st.pendingDiffs fp true) := by
        simpa using hc
      have heq : ((agent.mapSet st.pendingDiffs fp true).filter
          (fun q => q.2)).length = (agent.mapSet st.pendingDiffs fp true).length := by
        simp only [agent.countApproved] at hc2
        omega
      exact List.filter_length_eq_length.mp heq p hp
    · intro hall
      have heq : ((agent.mapSet st.pendingDiffs fp true).filter
          (fun q => q.2)).length = (agent.mapSet st.pendingDiffs fp true).length :=
        List.filter_length_eq_length.mpr hall
      simp only [agent.countApproved, decide_eq_true_eq]
      omega

/-- C1 witness: one new file with a diff makes the completion flow emit the
diff event and then complete; approving that single file triggers the
commit, with every pending entry approved. -/
theorem c1_witness :
    claude.interactiveHandleCompletion [] ["a.txt"] claude.plusLineOracle =
      [.diffEvent [("a.txt", "+new line")], .complete "1 files changed"]
    ∧ ((agent.handleDiffApproved
          { pendingDiffs := [("a.txt", false)], totalDiffs := 1 } "a.txt").2 = true ↔
        ∀ p ∈ (agent.handleDiffApproved
          { pendingDiffs := [("a.txt", false)], totalDiffs := 1 } "a.txt").1.pendingDiffs,
          p.2 = true) := by
  constructor
  · have h := c1_completion_gating.1 [] ["a.txt"] claude.plusLineOracle (by decide)
    rw [h]
    decide
  · exact c1_completion_gating.2.2
      { pendingDiffs := [("a.txt", false)], totalDiffs := 1 } "a.txt" (by decide) rfl

theorem lookupFolderPath_spec (folders : List config.Folder) (fid p : String)
    (h : agent.lookupFolderPath folders fid = p) (hne : p ≠ "") :
    ∃ f ∈ folders, f.id = fid ∧ f.path = p := by
  simp only [agent.lookupFolderPath] at h
  cases hfind : folders.find? (fun f => f.id == fid) with
  | none =>
    rw [hfind] at h
    exact absurd h.symm hne
  | some f =>
    rw [hfind] at h
    have hmem := List.mem_of_find?_eq_some hfind
    have hid : f.id = fid := by simpa using List.find?_some hfind
    exact ⟨f, hmem, hid, h⟩

theorem lookupFolderPath_none (folders : List config.Folder) (fid : String)
    (h : ∀ f ∈ folders, f.id ≠ fid) :
    agent.lookupFolderPath folders fid = "" := by
  simp only [agent.lookupFolderPath]
  have hfind : folders.find? (fun f => f.id == fid) = none := by
    rw [List.find?_eq_none]
    intro f hf
    simpa using h f hf
  rw [hfind]

/-- C2 counterexample: the preview-stop handler names a folder id, yet with
an id absent from the approved set it returns no error to the requester (it
only logs), and the commit-sync handler likewise acknowledges instead of
erroring; the claim requires every such handler to return an error. -/
theorem c2_counterexample :
    (agent.handlePreviewStop [] "folder-1").errored = false
    ∧ (∀ f ∈ ([] : List config.Folder), f.id ≠ "folder-1")
    ∧ (agent.handleRequestCommitSync [] "folder-1").2 = false := by
  refine ⟨rfl, ?_, rfl⟩
  intro f hf
  cases hf

theorem handleResumeSession_cases (folders : List config.Folder) (fid projectPath : String) :
    (∃ f ∈ folders, f.path ≠ "" ∧
      agent.handleResumeSession folders fid projectPath =
        ({ opened := some f.path, errored := false }, f.id))
    ∨ agent.handleResumeSession folders fid projectPath =
        ({ opened := none, errored := true }, fid) := by
  unfold agent.handleResumeSession
  cases hfind : folders.find? (fun f => f.id == fid) with
  | some f =>
    have hmem := List.mem_of_find?_eq_some hfind
    by_cases hfp : f.path = ""
    · have hfpb : (f.path == "") = true := beq_iff_eq.mpr hfp
      by_cases hpp : projectPath = ""
      · have hppb : (projectPath != "") = false := by simp [hpp]
        right
        simp [hfpb, hppb, hfp]
      · have hppb : (projectPath != "") = true := bne_iff_ne.mpr hpp
        cases hfind2 : folders.find? (fun f2 => f2.path == projectPath) with
        | some g =>
          have hgmem := List.mem_of_find?_eq_some hfind2
          have hgp : g.path = projectPath := by simpa using List.find?_some hfind2
          have hgne : g.path ≠ "" := by
            rw [hgp]
            exact hpp
          left
          refine ⟨g, hgmem, hgne, ?_⟩
          simp [hfpb, hppb, hfind2, hgne]
        | none =>
          right
          simp [hfpb, hppb, hfind2, hfp]
    · have hfpb : (f.path == "") = false := by
        simp only [beq_eq_false_iff_ne, ne_eq]
        exact hfp
      left
      refine ⟨f, hmem, hfp, ?_⟩
      simp [hfpb, hfp]
  | none =>
    by_cases hpp : projectPath = ""
    · have hppb : (projectPath != "") = false := by simp [hpp]
      right
      simp [hppb]
    · have hppb : (projectPath != "") = true := bne_iff_ne.mpr hpp
      cases hfind2 : folders.find? (fun f2 => f2.path == projectPath) with
      | some g =>
        have hgmem := List.mem_of_find?_eq_some hfind2
        have hgp : g.path = projectPath := by simpa using List.find?_some hfind2
        have hgne : g.path ≠ "" := by
          rw [hgp]
          exact hpp
        left
        refine ⟨g, hgmem, hgne, ?_⟩
        simp [hppb, hfind2, hgne]
      | none =>
        right
        simp [hppb, hfind2]

theorem handleResumeSession_fallback (folders : List config.Folder)
    (fid projectPath : String) (g : config.Folder)
    (hno : folders.find? (fun f => f.id == fid) = none)
    (hpp : projectPath ≠ "")
    (hfind2 : folders.find? (fun f => f.path == projectPath) = some g) :
    agent.handleResumeSession folders fid projectPath =
      ({ opened := some g.path, errored := false }, g.id) := by
  have hppb : (projectPath != "") = true := bne_iff_ne.mpr hpp
  have hgp : g.path = projectPath := by simpa using List.find?_some hfind2
  have hgne : g.path ≠ "" := by
    rw [hgp]
    exact hpp
  unfold agent.handleResumeSession
  simp [hno, hppb, hfind2, hgne]

/-- C2 amended: every handler that opens a folder path resolves the id
against the approved set at handling time and proceeds only with the path
of a matching approved folder, returning an error when the id is absent;
the resume-session handler may instead match the supplied project path
against an approved entry and rewrites the caller id to the matched entry
id; the preview-stop and commit-sync handlers return no error for an
unknown id, but they open no path outside the approved set either. -/
theorem c2_folder_authorization :
    (∀ (folders : List config.Folder) (fid : String) (inst : Bool) (p : String),
      (agent.handlePrompt folders fid inst).opened = some p →
      ∃ f ∈ folders, f.id = fid ∧ f.path = p)
    ∧ (∀ (folders : List config.Folder) (fid p : String),
      (agent.handleGitInit folders fid).opened = some p →
      ∃ f ∈ folders, f.id = fid ∧ f.path = p)
    ∧ (∀ (folders : List config.Folder) (fid p : String),
      (agent.handleGetCommits folders fid).opened = some p →
      ∃ f ∈ folders, f.id = fid ∧ f.path = p)
    ∧ (∀ (folders : List config.Folder) (fid p : String),
      (agent.handleGetCommitDetail folders fid).opened = some p →
      ∃ f ∈ folders, f.id = fid ∧ f.path = p)
    ∧ (∀ (folders : List config.Folder) (fid p : String),
      (agent.handlePreviewStart folders fid).opened = some p →
      ∃ f ∈ folders, f.id = fid ∧ f.path = p)
    ∧ (∀ (folders : List config.Folder) (fid p : String),
      (agent.handleFolderRemoveRequest folders fid).opened = some p →
      ∃ f ∈ folders, f.id = fid ∧ f.path = p)
    ∧ (∀ (folders : List config.Folder) (fid : String) (inst : Bool),
      (∀ f ∈ folders, f.id ≠ fid) →
      agent.handlePrompt folders fid inst = { opened := none, errored := true }
      ∧ agent.handleGitInit folders fid = { opened := none, errored := true }
      ∧ agent.handleGetCommits folders fid = { opened := none, errored := true }
      ∧ agent.handleGetCommitDetail folders fid = { opened := none, errored := true }
      ∧ agent.handlePreviewStart folders fid = { opened := none, errored := true }
      ∧ agent.handleFolderRemoveRequest folders fid = { opened := none, errored := true }
      ∧ (agent.handleFolderSelectRequest
          { approvedFolders := folders, selectedFolderID := "" } fid).errored = true)
    ∧ (∀ (folders : List config.Folder) (fid projectPath p : String),
      (agent.handleResumeSession folders fid projectPath).1.opened = some p →
      ∃ f ∈ folders, f.path = p
        ∧ (agent.handleResumeSession folders fid projectPath).2 = f.id)
    ∧ (∀ (folders : List config.Folder) (fid projectPath : String),
      (agent.handleResumeSession folders fid projectPath).1.opened = none →
      (agent.handleResumeSession folders fid projectPath).1.errored = true
        ∧ (agent.handleResumeSession folders fid projectPath).2 = fid)
    ∧ (∀ (folders : List config.Folder) (fid projectPath : String) (g : config.Folder),
      (∀ f ∈ folders, f.id ≠ fid) → projectPath ≠ "" →
      folders.find? (fun f => f.path == projectPath) = some g →
      agent.handleResumeSession folders fid projectPath =
        ({ opened := some g.path, errored := false }, g.id))
    ∧ (∀ (folders : List config.Folder) (fid : String),
      agent.handlePreviewStop folders fid = { opened := none, errored := false })
    ∧ (∀ (folders : List config.Folder) (fid p : String),
      p ∈ (agent.handleRequestCommitSync folders fid).1 →
      (∃ f ∈ folders, f.path = p)
        ∧ (agent.handleRequestCommitSync folders fid).2 = false) := by
  have resolveSpec : ∀ (folders : List config.Folder) (fid p : String),
      ((if agent.lookupFolderPath folders fid == "" then
          ({ opened := none, errored := true } : agent.HandlerResult)
        else { opened := some (agent.lookupFolderPath folders fid), errored := false }).opened
        = some p) →
      ∃ f ∈ folders, f.id = fid ∧ f.path = p := by
    intro folders fid p h
    by_cases hlp : agent.lookupFolderPath folders fid == ""
    · rw [if_pos hlp] at h
      cases h
    · rw [if_neg hlp] at h
      have hp : agent.lookupFolderPath folders fid = p := by simpa using h
      refine lookupFolderPath_spec folders fid p hp ?_
      rw [← hp]
      simpa using hlp
  refine ⟨?_, ?_, ?_, ?_, ?_, ?_, ?_, ?_, ?_, ?_, ?_, ?_⟩
  · intro folders fid inst p h
    apply resolveSpec folders fid p
    simp only [agent.handlePrompt] at h
    by_cases hlp : agent.lookupFolderPath folders fid == ""
    · rw [if_pos hlp] at h
      cases h
    · rw [if_neg hlp] at h
      rw [if_neg hlp]
      cases inst with
      | false => simp at h
      | true => simpa using h
  · intro folders fid p h
    exact resolveSpec folders fid p h
  · intro folders fid p h
    exact resolveSpec folders fid p h
  · intro folders fid p h
    exact resolveSpec folders fid p h
  · intro folders fid p h
    simp only [agent.handlePreviewStart, agent.GetFolderByID] at h
    cases hfind : folders.find? (fun f => f.id == fid) with
    | none =>
      rw [hfind] at h
      cases h
    | some f =>
      rw [hfind] at h
      have hmem := List.mem_of_find?_eq_some hfind
      have hid : f.id = fid := by simpa using List.find?_some hfind
      exact ⟨f, hmem, hid, by simpa using h⟩
  · intro folders fid p h
    simp only [agent.handleFolderRemoveRequest] at h
    cases hfind : folders.find? (fun f => f.id == fid) with
    | none =>
      rw [hfind] at h
      cases h
    | some f =>
      rw [hfind] at h
      have hmem := List.mem_of_find?_eq_some hfind
      have hid : f.id = fid := by simpa using List.find?_some hfind
      exact ⟨f, hmem, hid, by simpa using h⟩
  · intro folders fid inst hno
    have hlp := lookupFolderPath_none folders fid hno
    have hfind : folders.find? (fun f => f.id == fid) = none := by
      rw [List.find?_eq_none]
      intro f hf
      simpa using hno f hf
    have hany : folders.any (fun f => f.id == fid) = false := by
      simp only [List.any_eq_false]
      intro f hf
      simpa using hno f hf
    refine ⟨?_, ?_, ?_, ?_, ?_, ?_, ?_⟩
    · simp [agent.handlePrompt, hlp]
    · simp [agent.handleGitInit, hlp]
    · simp [agent.handleGetCommits, hlp]
    · simp [agent.handleGetCommitDetail, hlp]
    · simp [agent.handlePreviewStart, agent.GetFolderByID, hfind]
    · simp [agent.handleFolderRemoveRequest, hfind]
    · simp [agent.handleFolderSelectRequest, config.SelectFolder, hany]
  · intro folders fid projectPath p h
    rcases handleResumeSession_cases folders fid projectPath with ⟨f, hmem, _, heq⟩ | heq
    · rw [heq] at h ⊢
      have hp : f.path = p := by simpa using h
      exact ⟨f, hmem, hp, rfl⟩
    · rw [heq] at h
      cases h
  · intro folders fid projectPath h
    rcases handleResumeSession_cases folders fid projectPath with ⟨f, _, _, heq⟩ | heq
    · rw [heq] at h
      cases h
    · rw [heq]
      exact ⟨rfl, rfl⟩
  · intro folders fid projectPath g hno hpp hfind2
    have hfind : folders.find? (fun f => f.id == fid) = none := by
      rw [List.find?_eq_none]
      intro f hf
      simpa using hno f hf
    exact handleResumeSession_fallback folders fid projectPath g hfind hpp hfind2
  · intro folders fid
    rfl
  · intro folders fid p h
    simp only [agent.handleRequestCommitSync] at h
    rcases List.mem_map.mp h with ⟨f, hf, hfp⟩
    exact ⟨⟨f, (List.mem_filter.mp hf).1, hfp⟩, rfl⟩

/-- C2 witness: a one-folder approved set accepts the prompt for its own id,
rejects a ghost id with an error, and the resume handler rewrites a stale id
to the id found by path match. -/
theorem c2_witness :
    (∃ f ∈ [({ id := "u1", name := "a", path := "/a" } : config.Folder)],
      f.id = "u1" ∧ f.path = "/a")
    ∧ agent.handlePrompt [{ id := "u1", name := "a", path := "/a" }] "ghost" true
        = { opened := none, errored := true }
    ∧ agent.handleResumeSession [{ id := "u1", name := "a", path := "/a" }] "stale" "/a"
        = ({ opened := some "/a", errored := false }, "u1") := by
  refine ⟨?_, ?_, ?_⟩
  · exact c2_folder_authorization.1 [{ id := "u1", name := "a", path := "/a" }] "u1" true "/a"
      (by decide)
  · exact (c2_folder_authorization.2.2.2.2.2.2.1
      [{ id := "u1", name := "a", path := "/a" }] "ghost" true (by decide)).1
  · exact c2_folder_authorization.2.2.2.2.2.2.2.2.2.1
      [{ id := "u1", name := "a", path := "/a" }] "stale" "/a"
      { id := "u1", name := "a", path := "/a" } (by decide) (by decide) (by decide)

theorem foldl_firstUser (records : List watcher.SessionRecord) :
    ∀ acc : watcher.TitleAcc,
      (records.foldl watcher.titleStep acc).firstUser =
        (if acc.firstUser.isEmpty then
          watcher.firstText (fun r => r.rtype == "user" && ! r.text.isEmpty) records
        else acc.firstUser) := by
  induction records with
  | nil =>
    intro acc
    by_cases h : acc.firstUser.isEmpty
    · simp [watcher.firstText, h, List.isEmpty_iff.mp h]
    · simp [watcher.firstText, h]
  | cons r tl ih =>
    intro acc
    rw [List.foldl_cons, ih]
    by_cases ha : acc.firstUser.isEmpty
    · by_cases hr : (r.rtype == "user" && ! r.text.isEmpty) = true
      · have hne : r.text.isEmpty = false := by
          rcases Bool.and_eq_true_iff.mp hr with ⟨_, h2⟩
          simpa using h2
        have hstep : (watcher.titleStep acc r).firstUser = r.text := by
          simp [watcher.titleStep, ha, hr]
        have hfind : List.find? (fun r => r.rtype == "user" && ! r.text.isEmpty) (r :: tl)
            = some r := List.find?_cons_of_pos _ hr
        rw [hstep]
        simp [ha, hne, watcher.firstText, hfind]
      · have hstep : (watcher.titleStep acc r).firstUser = acc.firstUser := by
          simp only [watcher.titleStep]
          rw [if_neg]
          simp only [Bool.and_assoc] at hr ⊢
          intro hcontra
          rcases Bool.and_eq_true_iff.mp hcontra with ⟨_, h2⟩
          exact hr h2
        rw [hstep]
        simp only [ha, if_true]
        have hfind : watcher.firstText (fun r => r.rtype == "user" && ! r.text.isEmpty)
            (r :: tl) = watcher.firstText (fun r => r.rtype == "user" && ! r.text.isEmpty) tl := by
          simp only [watcher.firstText]
          rw [List.find?_cons_of_neg]
          simpa using hr
        rw [hfind]
    · have hstep : (watcher.titleStep acc r).firstUser = acc.firstUser := by
        simp [watcher.titleStep, ha]
      rw [hstep]
      simp [ha]

theorem foldl_firstAssistant (records : List watcher.SessionRecord) :
    ∀ acc : watcher.TitleAcc,
      (records.foldl watcher.titleStep acc).firstAssistant =
        (if acc.firstAssistant.isEmpty then
          watcher.firstText (fun r => r.rtype == "assistant" && ! r.text.isEmpty) records
        else acc.firstAssistant) := by
  induction records with
  | nil =>
    intro acc
    by_cases h : acc.firstAssistant.isEmpty
    · simp [watcher.firstText, h, List.isEmpty_iff.mp h]
    · simp [watcher.firstText, h]
  | cons r tl ih =>
    intro acc
    rw [List.foldl_cons, ih]
    by_cases ha : acc.firstAssistant.isEmpty
    · by_cases hr : (r.rtype == "assistant" && ! r.text.isEmpty) = true
      · have hne : r.text.isEmpty = false := by
          rcases Bool.and_eq_true_iff.mp hr with ⟨_, h2⟩
          simpa using h2
        have hstep : (watcher.titleStep acc r).firstAssistant = r.text := by
          simp [watcher.titleStep, ha, hr]
        have hfind : List.find? (fun r => r.rtype == "assistant" && ! r.text.isEmpty) (r :: tl)
            = some r := List.find?_cons_of_pos _ hr
        rw [hstep]
        simp [ha, hne, watcher.firstText, hfind]
      · have hstep : (watcher.titleStep acc r).firstAssistant = acc.firstAssistant := by
          simp only [watcher.titleStep]
          rw [if_neg]
          simp only [Bool.and_assoc] at hr ⊢
          intro hcontra
          rcases Bool.and_eq_true_iff.mp hcontra with ⟨_, h2⟩
          exact hr h2
        rw [hstep]
        simp only [ha, if_true]
        have hfind : watcher.firstText (fun r => r.rtype == "assistant" && ! r.text.isEmpty)
            (r :: tl)
            = watcher.firstText (fun r => r.rtype == "assistant" && ! r.text.isEmpty) tl := by
          simp only [watcher.firstText]
          rw [List.find?_cons_of_neg]
          simpa using hr
        rw [hfind]
    · have hstep : (watcher.titleStep acc r).firstAssistant = acc.firstAssistant := by
        simp [watcher.titleStep, ha]
      rw [hstep]
      simp [ha]

theorem foldl_anyContent (records : List watcher.SessionRecord) :
    ∀ acc : watcher.TitleAcc,
      (records.foldl watcher.titleStep acc).anyContent =
        (if acc.anyContent.isEmpty then
          watcher.firstText (fun r => ! r.text.isEmpty) records
        else acc.anyContent) := by
  induction records with
  | nil =>
    intro acc
    by_cases h : acc.anyContent.isEmpty
    · simp [watcher.firstText, h, List.isEmpty_iff.mp h]
    · simp [watcher.firstText, h]
  | cons r tl ih =>
    intro acc
    rw [List.foldl_cons, ih]
    by_cases ha : acc.anyContent.isEmpty
    · by_cases hr : (! r.text.isEmpty) = true
      · have hne : r.text.isEmpty = false := by simpa using hr
        have hstep : (watcher.titleStep acc r).anyContent = r.text := by
          simp [watcher.titleStep, ha, hr]
        have hfind : List.find? (fun r => ! r.text.isEmpty) (r :: tl) = some r :=
          List.find?_cons_of_pos _ hr
        rw [hstep]
        simp [ha, hne, watcher.firstText, hfind]
      · have hstep : (watcher.titleStep acc r).anyContent = acc.anyContent := by
          simp only [watcher.titleStep]
          rw [if_neg]
          intro hcontra
          rcases Bool.and_eq_true_iff.mp hcontra with ⟨_, h2⟩
          exact hr h2
        rw [hstep]
        simp only [ha, if_true]
        have hfind : watcher.firstText (fun r => ! r.text.isEmpty) (r :: tl)
            = watcher.firstText (fun r => ! r.text.isEmpty) tl := by
          simp only [watcher.firstText]
          rw [List.find?_cons_of_neg]
          simpa using hr
        rw [hfind]
    · have hstep : (watcher.titleStep acc r).anyContent = acc.anyContent := by
        simp [watcher.titleStep, ha]
      rw [hstep]
      simp [ha]

theorem foldl_title_noSummary (records : List watcher.SessionRecord)
    (hno : ∀ r ∈ records, r.rtype = "summary" → r.summary = []) :
    ∀ acc : watcher.TitleAcc,
      (records.foldl watcher.titleStep acc).title = acc.title := by
  induction records with
  | nil => intro acc; rfl
  | cons r tl ih =>
    intro acc
    rw [List.foldl_cons]
    have htl : ∀ x ∈ tl, x.rtype = "summary" → x.summary = [] := by
      intro x hx
      exact hno x (List.mem_cons_of_mem r hx)
    rw [ih htl]
    simp only [watcher.titleStep]
    rw [if_neg]
    intro hcontra
    rcases Bool.and_eq_true_iff.mp hcontra with ⟨h1, h2⟩
    have hty : r.rtype = "summary" := by simpa using h1
    have := hno r (List.mem_cons_self r tl) hty
    simp [this] at h2

theorem isEmpty_false_of_ne {α : Type} {l : List α} (h : l ≠ []) : l.isEmpty = false := by
  cases l with
  | nil => exact absurd rfl h
  | cons a tl => rfl

/-- C8 counterexample: a 61-character message without spaces produces a
title of 63 characters (60 kept characters plus the three-dot ellipsis),
not one of at most 60 characters cut at a word boundary. -/
theorem c8_counterexample :
    60 < (List.replicate 61 'a').length
    ∧ (watcher.generateTitleFromMessage (List.replicate 61 'a')).length = 63 := by
  constructor <;> decide

/-- C8 amended: with no summary record the title falls back to the first
user text, else the first assistant text, else any record content; a
stripped message longer than 60 characters becomes its first 60 characters,
cut back to the last space when that space lies past position 30 (otherwise
cut mid-word), with a three-dot ellipsis appended, for a total of up to 63
characters; shorter messages are returned unchanged. -/
theorem c8_title_generation :
    (∀ records : List watcher.SessionRecord,
      (∀ r ∈ records, r.rtype = "summary" → r.summary = []) →
      watcher.deriveTitle records =
        (if watcher.firstText (fun r => r.rtype == "user" && ! r.text.isEmpty) records ≠ []
         then watcher.generateTitleFromMessage
           (watcher.firstText (fun r => r.rtype == "user" && ! r.text.isEmpty) records)
         else if watcher.firstText
             (fun r => r.rtype == "assistant" && ! r.text.isEmpty) records ≠ []
         then watcher.generateTitleFromMessage
           (watcher.firstText (fun r => r.rtype == "assistant" && ! r.text.isEmpty) records)
         else if watcher.firstText (fun r => ! r.text.isEmpty) records ≠ []
         then watcher.generateTitleFromMessage
           (watcher.firstText (fun r => ! r.text.isEmpty) records)
         else []))
    ∧ (∀ message : List Char, 60 < (watcher.stripPreamble message).length →
      ∃ core : List Char,
        watcher.generateTitleFromMessage message = core ++ ['.', '.', '.']
        ∧ core.length ≤ 60)
    ∧ (∀ message : List Char, (watcher.stripPreamble message).length ≤ 60 →
      watcher.generateTitleFromMessage message = watcher.stripPreamble message)
    ∧ (∀ (message : List Char) (i : Nat), 60 < (watcher.stripPreamble message).length →
      watcher.lastSpaceIdx ((watcher.stripPreamble message).take 60) = some i → 30 < i →
      watcher.generateTitleFromMessage message =
        ((watcher.stripPreamble message).take 60).take i ++ ['.', '.', '.']) := by
  have hunfold : watcher.maxTitleLen = 60 := rfl
  refine ⟨?_, ?_, ?_, ?_⟩
  · intro records hno
    simp only [watcher.deriveTitle]
    rw [foldl_title_noSummary records hno watcher.initTitleAcc,
      foldl_firstUser records watcher.initTitleAcc,
      foldl_firstAssistant records watcher.initTitleAcc,
      foldl_anyContent records watcher.initTitleAcc]
    simp only [watcher.initTitleAcc, List.isEmpty_nil, if_true]
    by_cases hu : watcher.firstText
        (fun r => r.rtype == "user" && ! r.text.isEmpty) records = []
    · by_cases hb : watcher.firstText
          (fun r => r.rtype == "assistant" && ! r.text.isEmpty) records = []
      · by_cases hc : watcher.firstText (fun r => ! r.text.isEmpty) records = []
        · simp [hu, hb, hc]
        · simp [hu, hb, hc, isEmpty_false_of_ne hc]
      · simp [hu, hb, isEmpty_false_of_ne hb]
    · simp [hu, isEmpty_false_of_ne hu]
  · intro message hlen
    have hgt : ¬ ((watcher.stripPreamble message).length ≤ watcher.maxTitleLen) := by
      rw [hunfold]
      omega
    cases hidx : watcher.lastSpaceIdx
        ((watcher.stripPreamble message).take watcher.maxTitleLen) with
    | none =>
      refine ⟨(watcher.stripPreamble message).take watcher.maxTitleLen, ?_, ?_⟩
      · simp [watcher.generateTitleFromMessage, hgt, hidx]
      · rw [hunfold]
        exact List.length_take_le 60 (watcher.stripPreamble message)
    | some i =>
      by_cases hi : watcher.maxTitleLen / 2 < i
      · refine
          ⟨((watcher.stripPreamble message).take watcher.maxTitleLen).take i, ?_, ?_⟩
        · simp [watcher.generateTitleFromMessage, hgt, hidx, hi]
        · calc (((watcher.stripPreamble message).take watcher.maxTitleLen).take i).length
              ≤ ((watcher.stripPreamble message).take watcher.maxTitleLen).length :=
                List.length_take_le' i _
            _ ≤ 60 := by
                rw [hunfold]
                exact List.length_take_le 60 (watcher.stripPreamble message)
      · refine ⟨(watcher.stripPreamble message).take watcher.maxTitleLen, ?_, ?_⟩
        · simp [watcher.generateTitleFromMessage, hgt, hidx, hi]
        · rw [hunfold]
          exact List.length_take_le 60 (watcher.stripPreamble message)
  · intro message hle
    have hle2 : (watcher.stripPreamble message).length ≤ watcher.maxTitleLen := by
      rw [hunfold]
      exact hle
    simp [watcher.generateTitleFromMessage, hle2]
  · intro message i hlen hidx hi
    have hgt : ¬ ((watcher.stripPreamble message).length ≤ watcher.maxTitleLen) := by
      rw [hunfold]
      omega
    have hidx2 : watcher.lastSpaceIdx
        ((watcher.stripPreamble message).take watcher.maxTitleLen) = some i := hidx
    have hi2 : watcher.maxTitleLen / 2 < i := by
      rw [hunfold]
      omega
    simp only [watcher.generateTitleFromMessage, hidx2, hi2, if_true, if_neg hgt]
    rw [hunfold]

/-- C8 witness: a log whose records are an assistant line and a user line
takes its title from the user line; a long message keeps at most 60
characters before the ellipsis; a short message is unchanged. -/
theorem c8_witness :
    watcher.deriveTitle
        [{ rtype := "assistant", text := ['h', 'i'], summary := [] },
         { rtype := "user", text := ['y', 'o'], summary := [] }] = ['y', 'o']
    ∧ (∃ core : List Char,
        watcher.generateTitleFromMessage (List.replicate 61 'b') = core ++ ['.', '.', '.']
        ∧ core.length ≤ 60)
    ∧ watcher.generateTitleFromMessage ['o', 'k'] = ['o', 'k'] := by
  refine ⟨?_, ?_, ?_⟩
  · have h := c8_title_generation.1
      [{ rtype := "assistant", text := ['h', 'i'], summary := [] },
       { rtype := "user", text := ['y', 'o'], summary := [] }] (by decide)
    rw [h]
    decide
  · exact c8_title_generation.2.1 (List.replicate 61 'b') (by decide)
  · exact c8_title_generation.2.2.1 ['o', 'k'] (by decide)
